import Mathlib

/-!
Shallow embedding of `src/server.js` (TesSimple): an in-memory data store of
quests, markers and categories, mirrored to a JSON durability file, plus a
realtime gateway that applies client operations to the store and broadcasts
the results.

Dynamic JavaScript values are embedded as the inductive `JVal`; JS objects are
association lists of string keys (`Obj`), in property-insertion order, as JS
objects preserve it.  Wall-clock time (`Date.now()`, `new Date().toISOString()`)
and `Math.random()` are environment inputs threaded explicitly.  String
rendering of dynamic values (template literals, `Date.toDateString`) is
abstracted as environment functions, since no verified property depends on the
rendered text.
-/

/-- A JSON-serializable JavaScript runtime value.  `NaN` and `undefined` are
not representable: `undefined` is modelled by `Option.none` at use sites
(absent property reads), and no modelled code path produces `NaN`. -/
inductive JVal where
  | jnull
  | jbool (b : Bool)
  | jnum (q : Rat)
  | jstr (s : String)
  | jarr (elems : List JVal)
  | jobj (fields : List (String × JVal))

/-- A JavaScript object: fields in property-insertion order. -/
abbrev Obj := List (String × JVal)

/-- Property read `o[key]`: `none` models `undefined`. -/
def getField : Obj → String → Option JVal
  | [], _ => none
  | (k, v) :: rest, key => if k = key then some v else getField rest key

/-- Property write `o[key] = v`: overwrites in place if the key exists
(keeping its position, as JS does), otherwise appends. -/
def setField : Obj → String → JVal → Obj
  | [], key, v => [(key, v)]
  | (k, w) :: rest, key, v =>
      if k = key then (key, v) :: rest else (k, w) :: setField rest key v

/-- Model of `Object.assign(target, updates)`: writes every field of `updates` onto
`target`, left to right. -/
def objAssign (target updates : Obj) : Obj :=
  updates.foldl (fun t kv => setField t kv.1 kv.2) target

/-- JS strict equality `===` on runtime values.  On primitives it is
structural; on objects and arrays it is reference equality, and the embedded
code only ever compares separately-constructed (hence distinct) references,
so those cases are `false`. -/
def jsEq : JVal → JVal → Bool
  | .jnull, .jnull => true
  | .jbool a, .jbool b => a == b
  | .jnum a, .jnum b => decide (a = b)
  | .jstr a, .jstr b => decide (a = b)
  | _, _ => false

/-- Strict equality lifted to possibly-`undefined` values
(`undefined === undefined` is `true`). -/
def jsEqU : Option JVal → Option JVal → Bool
  | some a, some b => jsEq a b
  | none, none => true
  | _, _ => false

/-- JS truthiness of a runtime value (`NaN` is unrepresentable, see `JVal`). -/
def truthy : JVal → Bool
  | .jnull => false
  | .jbool b => b
  | .jnum q => decide (q ≠ 0)
  | .jstr s => decide (s ≠ "")
  | .jarr _ => true
  | .jobj _ => true

/-- Property read on an arbitrary runtime value: `undefined` on
non-objects (primitive property lookup in the code only ever hits absent
keys on the values the verified properties exercise). -/
def jsGet (v : JVal) (key : String) : Option JVal :=
  match v with
  | .jobj fields => getField fields key
  | _ => none

/-- Cast a runtime value to an object's field list.  The non-object branch is
never exercised by the verified properties (the loader adopts whatever value
the file holds; only well-formed documents are reasoned about). -/
def asObj : JVal → Obj
  | .jobj fields => fields
  | _ => []

/-- Cast a runtime value to a list of objects (same caveat as `asObj`). -/
def asObjList : JVal → List Obj
  | .jarr xs => xs.map asObj
  | _ => []

/-- Cast a runtime value to a string (same caveat as `asObj`). -/
def asStr : JVal → String
  | .jstr s => s
  | _ => ""

/-- Cast a runtime value to a list of strings (same caveat as `asObj`). -/
def asStrList : JVal → List String
  | .jarr xs => xs.map asStr
  | _ => []

/-- The `x || dflt` adoption used by `loadData`: take `f v` when the key is
present and truthy, otherwise the default. -/
def orDefault (x : Option JVal) (f : JVal → α) (dflt : α) : α :=
  match x with
  | some v => if truthy v then f v else dflt
  | none => dflt

/-- Duplicate elimination by a boolean equality test; `(dedupBy e l).length`
is the size of the JS `Set` built from `l` when `e` is the Set's
SameValueZero test. -/
def dedupBy (e : α → α → Bool) : List α → List α
  | [] => []
  | x :: xs =>
      if (dedupBy e xs).any (e x) then dedupBy e xs else x :: dedupBy e xs

/-- Holds on values whose strict equality is structural: `undefined`,
`null`, booleans, numbers and strings (not objects or arrays). -/
def primOptB : Option JVal → Bool
  | some (.jarr _) => false
  | some (.jobj _) => false
  | _ => true

/-- The in-memory state owned by the `DataStore` class (`this.data`). -/
structure StoreData where
  quests : List Obj
  markers : List Obj
  customCategories : List String
  analytics : Obj

/-- The data the constructor installs before `loadData` runs (`this.data`
initializer); `iso` is `new Date().toISOString()` at construction time. -/
def initData (iso : String) : StoreData :=
  { quests := []
    markers := []
    customCategories := ["design", "programming", "marketing", "writing", "other"]
    analytics := [("totalConnections", .jnum 0), ("lastUpdated", .jstr iso)] }

/-- Result of attempting to read and parse the durability file:
the file may be absent, unreadable/unparsable (the caught error path), or a
parsed JSON document. -/
inductive FileRead where
  | missing
  | malformed
  | parsed (saved : JVal)

namespace DataStore

/-- Method `loadData`: forgiving partial merge of the parsed file over the current
data.  Each top-level key is adopted when present and truthy, otherwise the
corresponding in-memory value stays; read or parse errors are caught, leaving
everything in place. -/
def loadData (file : FileRead) (d : StoreData) : StoreData :=
  match file with
  | .missing => d
  | .malformed => d
  | .parsed saved =>
      { quests := orDefault (jsGet saved "quests") asObjList []
        markers := orDefault (jsGet saved "markers") asObjList []
        customCategories :=
          orDefault (jsGet saved "customCategories") asStrList d.customCategories
        analytics := orDefault (jsGet saved "analytics") asObj d.analytics }

/-- Model of `JSON.stringify(this.data)`: the document written to the durability
file, keys in the insertion order of `this.data`. -/
def serializeData (d : StoreData) : JVal :=
  .jobj [("quests", .jarr (d.quests.map .jobj)),
         ("markers", .jarr (d.markers.map .jobj)),
         ("customCategories", .jarr (d.customCategories.map .jstr)),
         ("analytics", .jobj d.analytics)]

/-- Method `saveData`: stamps `analytics.lastUpdated` with the current ISO time and
serializes the whole state; returns the updated state and the written
document (write errors are caught and ignored, so the document is all that
matters). -/
def saveData (iso : String) (d : StoreData) : StoreData × JVal :=
  let d' := { d with analytics := setField d.analytics "lastUpdated" (.jstr iso) }
  (d', serializeData d')

/-- Constructor `new DataStore()`: default data, then `loadData` over the durability
file.  The 10-second heartbeat timer and the debounced `scheduleSave` only
re-run `saveData`; timers are not modelled. -/
def construct (iso : String) (file : FileRead) : StoreData :=
  loadData file (initData iso)

/-- Method `addQuest(quest)`: stamps `id = Date.now() + Math.random()` and
`createdAt`, unshifts onto `quests`, returns the stored quest.
`nowMs` is `Date.now()` and `rand` is the `Math.random()` draw. -/
def addQuest (nowMs : Nat) (rand : Rat) (iso : String) (quest : Obj)
    (d : StoreData) : Obj × StoreData :=
  let q := setField (setField quest "id" (.jnum ((nowMs : Rat) + rand)))
      "createdAt" (.jstr iso)
  (q, { d with quests := q :: d.quests })

/-- The predicate of `quests.find(q => q.id === id)`. -/
def questIdMatches (id : JVal) (q : Obj) : Bool :=
  jsEqU (getField q "id") (some id)

/-- Mutate the first element satisfying `p` in place with `f`; returns the
mutated element (the `find` result aliases the list slot) and the list. -/
def updateFirst (p : Obj → Bool) (f : Obj → Obj) : List Obj → Option Obj × List Obj
  | [] => (none, [])
  | q :: rest =>
      if p q then (some (f q), f q :: rest)
      else
        let r := updateFirst p f rest
        (r.1, q :: r.2)

/-- Method `updateQuest(id, updates)`: find by `id`, `Object.assign` the updates,
stamp `updatedAt`; `none` is the `null` not-found signal. -/
def updateQuest (iso : String) (id : JVal) (updates : Obj)
    (d : StoreData) : Option Obj × StoreData :=
  let r := updateFirst (questIdMatches id)
      (fun q => setField (objAssign q updates) "updatedAt" (.jstr iso)) d.quests
  (r.1, { d with quests := r.2 })

/-- Model of `findIndex` + `splice(index, 1)[0]`: remove the first element satisfying
`p`, returning it and the remainder. -/
def removeFirst (p : Obj → Bool) : List Obj → Option Obj × List Obj
  | [] => (none, [])
  | q :: rest =>
      if p q then (some q, rest)
      else
        let r := removeFirst p rest
        (r.1, q :: r.2)

/-- Method `deleteQuest(id)`: remove the first quest whose `id` strictly equals
`id`; `none` is the `null` not-found signal. -/
def deleteQuest (id : JVal) (d : StoreData) : Option Obj × StoreData :=
  let r := removeFirst (questIdMatches id) d.quests
  (r.1, { d with quests := r.2 })

/-- Method `addMarker(marker)`: same shape as `addQuest`, on `markers`. -/
def addMarker (nowMs : Nat) (rand : Rat) (iso : String) (marker : Obj)
    (d : StoreData) : Obj × StoreData :=
  let m := setField (setField marker "id" (.jnum ((nowMs : Rat) + rand)))
      "createdAt" (.jstr iso)
  (m, { d with markers := m :: d.markers })

/-- Method `deleteMarker(id)`: same shape as `deleteQuest`, on `markers`. -/
def deleteMarker (id : JVal) (d : StoreData) : Option Obj × StoreData :=
  let r := removeFirst (questIdMatches id) d.markers
  (r.1, { d with markers := r.2 })

/-- Method `addCategory(name)`: append unless already present (case-sensitive
`includes`); `none` is the `null` already-exists signal. -/
def addCategory (name : String) (d : StoreData) : Option String × StoreData :=
  if name ∈ d.customCategories then (none, d)
  else (some name, { d with customCategories := d.customCategories ++ [name] })

/-- Model of `indexOf` + `splice` on the category list: remove the first exact match. -/
def removeFirstStr (name : String) : List String → Option String × List String
  | [] => (none, [])
  | s :: rest =>
      if s = name then (some s, rest)
      else
        let r := removeFirstStr name rest
        (r.1, s :: r.2)

/-- Method `deleteCategory(name)`: remove the first exact match; `none` is the
`null` not-found signal. -/
def deleteCategory (name : String) (d : StoreData) : Option String × StoreData :=
  let r := removeFirstStr name d.customCategories
  (r.1, { d with customCategories := r.2 })

/-- Method `clearAllQuests()` (the JS method also returns the literal `true`). -/
def clearAllQuests (d : StoreData) : StoreData := { d with quests := [] }

/-- Method `clearAllMarkers()` (the JS method also returns the literal `true`). -/
def clearAllMarkers (d : StoreData) : StoreData := { d with markers := [] }

end DataStore

/-- The object `getStats()` returns. -/
structure Stats where
  totalQuests : Nat
  totalMarkers : Nat
  questsOpen : Nat
  questsTaken : Nat
  activeUsers : Nat
  markersToday : Nat
  customCategories : Nat
  lastUpdated : Option JVal

/-- The predicate of `quests.filter(q => q.status === s)`. -/
def statusIs (s : String) (q : Obj) : Bool :=
  jsEqU (getField q "status") (some (.jstr s))

namespace DataStore

/-- Method `getStats()`: derived counters, computed on demand.  `today` is
`new Date().toDateString()` for the current instant and `dateStr` models
`m => new Date(m.createdAt).toDateString()` (date parsing and rendering are
abstracted; no verified property depends on them).  `activeUsers` is
`new Set(quests.map(q => q.user)).size`: SameValueZero-distinct values,
which on the reference-distinct objects the store holds is `jsEqU`. -/
def getStats (today : String) (dateStr : Option JVal → String)
    (d : StoreData) : Stats :=
  { totalQuests := d.quests.length
    totalMarkers := d.markers.length
    questsOpen := (d.quests.filter (statusIs "open")).length
    questsTaken := (d.quests.filter (statusIs "taken")).length
    activeUsers := (dedupBy jsEqU (d.quests.map (fun q => getField q "user"))).length
    markersToday := (d.markers.filter
        (fun m => dateStr (getField m "createdAt") == today)).length
    customCategories := d.customCategories.length
    lastUpdated := getField d.analytics "lastUpdated" }

end DataStore

/-- The object `getAllData()` returns: the three primary collections, as
held (no copy). -/
structure Snapshot where
  quests : List Obj
  markers : List Obj
  customCategories : List String

namespace DataStore

/-- Method `getAllData()`. -/
def getAllData (d : StoreData) : Snapshot :=
  { quests := d.quests
    markers := d.markers
    customCategories := d.customCategories }

end DataStore

/-- Per-event environment inputs: the clock reads, the `Math.random()` draw,
and the abstracted string renderings (see `DataStore.getStats`;
`display` models template-literal rendering of a dynamic value). -/
structure Env where
  nowMs : Nat
  rand : Rat
  iso : String
  today : String
  dateStr : Option JVal → String
  display : Option JVal → String

/-- The connection registry: `connectedUsers` keys and the `adminSockets`
set, as lists of socket ids (socket ids are unique, so list membership is
set membership). -/
structure Gateway where
  connectedUsers : List String
  adminSockets : List String

/-- Substring test backing the referrer inspection (`String.includes`). -/
def strContains (s pat : String) : Bool := decide (pat.toList <:+: s.toList)

/-- The admin classification at connect time:
`referer?.includes('/admin') || referer?.includes('?admin=true') ||
referer?.includes('#admin')` (an absent referer short-circuits to
`undefined`, which is falsy). -/
def checkAdmin (referer : Option String) : Bool :=
  match referer with
  | none => false
  | some r =>
      strContains r "/admin" || strContains r "?admin=true" || strContains r "#admin"

/-- Where an emitted event goes: `io.emit` (all connected sockets),
`io.to(sid).emit` (one socket's room), or `socket.emit` (the sender). -/
inductive Target where
  | all
  | toSession (sid : String)
  | sender

/-- One `emit` call: target, event name, and optional payload argument. -/
structure Emission where
  target : Target
  event : String
  payload : Option JVal

/-- Whether socket `sid` is delivered emission `e` (the sender is a
connected socket; `io.to` delivers only to a currently connected id). -/
def receives (g : Gateway) (sender sid : String) (e : Emission) : Bool :=
  match e.target with
  | .all => decide (sid ∈ g.connectedUsers)
  | .toSession t => decide (t = sid) && decide (sid ∈ g.connectedUsers)
  | .sender => decide (sid = sender)

/-- The fields of the snapshot spread into an emitted payload
(`...dataStore.getAllData()`). -/
def snapshotFields (d : StoreData) : Obj :=
  [("quests", .jarr (d.quests.map .jobj)),
   ("markers", .jarr (d.markers.map .jobj)),
   ("customCategories", .jarr (d.customCategories.map .jstr))]

/-- Connection handling: register the socket, classify it as admin from the
referrer, emit `initialData` to it and the new `userCount` to everyone.
The `analytics.totalConnections` counter increment is elided (no verified
property concerns it). -/
def connect (sid : String) (referer : Option String) (g : Gateway)
    (d : StoreData) : Gateway × List Emission :=
  let isAdm := checkAdmin referer
  let g' : Gateway :=
    { connectedUsers := g.connectedUsers ++ [sid]
      adminSockets := if isAdm then g.adminSockets ++ [sid] else g.adminSockets }
  (g', [⟨.sender, "initialData",
          some (.jobj (snapshotFields d ++
            [("isAdmin", .jbool isAdm), ("connectionId", .jstr sid)]))⟩,
        ⟨.all, "userCount", some (.jnum g'.connectedUsers.length)⟩])

/-- Disconnect handling: deregister, drop admin membership, broadcast the
new `userCount`. -/
def disconnect (sid : String) (g : Gateway) : Gateway × List Emission :=
  let g' : Gateway :=
    { connectedUsers := g.connectedUsers.filter (· ≠ sid)
      adminSockets := g.adminSockets.filter (· ≠ sid) }
  (g', [⟨.all, "userCount", some (.jnum g'.connectedUsers.length)⟩])

/-- The inbound realtime messages.  `addQuest`/`addMarker` payloads are
either an object or `null` (`none`) — the value whose property write throws;
primitive payloads are outside the modelled message space.  An
`updateQuest` payload is `null` or an object carrying `id` and `status`
(payloads missing either key would destructure to `undefined`, outside the
modelled space).  `addCategory`/`deleteCategory` names are strings, the only
payloads the verified properties concern. -/
inductive Msg where
  | addQuest (payload : Option Obj)
  | updateQuest (payload : Option (JVal × JVal))
  | deleteQuest (id : JVal)
  | addMarker (payload : Option Obj)
  | deleteMarker (id : JVal)
  | clearAllQuests
  | clearAllMarkers
  | addCategory (name : String)
  | deleteCategory (name : String)
  | getAdminStats
  | ping

/-- The `adminNotification` payload built for each admin socket. -/
def adminNotifyPayload (env : Env) (ntype label : String) (entity : Obj) : JVal :=
  .jobj [("type", .jstr ntype),
         ("message", .jstr (label ++ " baru: \"" ++
            env.display (getField entity "title") ++ "\"")),
         ("data", .jobj entity),
         ("timestamp", .jstr env.iso)]

/-- The `getStats()` result as the emitted payload object. -/
def Stats.toObj (s : Stats) : Obj :=
  [("totalQuests", .jnum s.totalQuests),
   ("totalMarkers", .jnum s.totalMarkers),
   ("questsOpen", .jnum s.questsOpen),
   ("questsTaken", .jnum s.questsTaken),
   ("activeUsers", .jnum s.activeUsers),
   ("markersToday", .jnum s.markersToday),
   ("customCategories", .jnum s.customCategories)] ++
  (match s.lastUpdated with
   | some v => [("lastUpdated", v)]
   | none => [])

/-- One inbound message processed by its registered handler: the emissions
made and the store afterwards.  The category handlers guard their broadcast
on the truthiness of the returned string (`if (added)` / `if (deleted)`),
so a successful mutation under the empty-string name broadcasts nothing.  `Except.error` means an exception escaped
the handler uncaught.  Each handler's `try`/`catch` is reproduced:
* `addQuest` with a `null` payload throws at the `quest.id` property write,
  inside the `try`, so the `catch` emits `error` to the sender;
* `updateQuest` destructures `({ id, status })` in its parameter position,
  before the `try`, so a `null` payload throws uncaught;
* `addMarker` with a `null` payload throws inside the `try`; its `catch`
  only logs;
* every other modelled handler body cannot throw (`getAdminStats` and
  `ping` have no `try`/`catch` at all, and their bodies are total). -/
def handleMsg (env : Env) (g : Gateway) (d : StoreData) :
    Msg → Except Unit (List Emission × StoreData)
  | .addQuest none =>
      .ok ([⟨.sender, "error", some (.jobj [("message", .jstr "Failed to add quest")])⟩], d)
  | .addQuest (some payload) =>
      let r := DataStore.addQuest env.nowMs env.rand env.iso payload d
      .ok (⟨.all, "questAdded", some (.jobj r.1)⟩ ::
           g.adminSockets.map (fun aid =>
             ⟨.toSession aid, "adminNotification",
              some (adminNotifyPayload env "quest_added" "Quest" r.1)⟩), r.2)
  | .updateQuest none => .error ()
  | .updateQuest (some (id, status)) =>
      let r := DataStore.updateQuest env.iso id [("status", status)] d
      match r.1 with
      | some q => .ok ([⟨.all, "questUpdated", some (.jobj q)⟩], r.2)
      | none => .ok ([], r.2)
  | .deleteQuest id =>
      let r := DataStore.deleteQuest id d
      match r.1 with
      | some _ => .ok ([⟨.all, "questDeleted", some id⟩], r.2)
      | none => .ok ([], r.2)
  | .addMarker none => .ok ([], d)
  | .addMarker (some payload) =>
      let r := DataStore.addMarker env.nowMs env.rand env.iso payload d
      .ok (⟨.all, "markerAdded", some (.jobj r.1)⟩ ::
           g.adminSockets.map (fun aid =>
             ⟨.toSession aid, "adminNotification",
              some (adminNotifyPayload env "marker_added" "Marker" r.1)⟩), r.2)
  | .deleteMarker id =>
      let r := DataStore.deleteMarker id d
      match r.1 with
      | some _ => .ok ([⟨.all, "markerDeleted", some id⟩], r.2)
      | none => .ok ([], r.2)
  | .clearAllQuests =>
      .ok ([⟨.all, "allQuestsCleared", none⟩], DataStore.clearAllQuests d)
  | .clearAllMarkers =>
      .ok ([⟨.all, "allMarkersCleared", none⟩], DataStore.clearAllMarkers d)
  | .addCategory name =>
      let r := DataStore.addCategory name d
      match r.1 with
      | some added =>
          if truthy (.jstr added) then .ok ([⟨.all, "categoryAdded", some (.jstr name)⟩], r.2)
          else .ok ([], r.2)
      | none => .ok ([], r.2)
  | .deleteCategory name =>
      let r := DataStore.deleteCategory name d
      match r.1 with
      | some deleted =>
          if truthy (.jstr deleted) then .ok ([⟨.all, "categoryDeleted", some (.jstr name)⟩], r.2)
          else .ok ([], r.2)
      | none => .ok ([], r.2)
  | .getAdminStats =>
      let s := DataStore.getStats env.today env.dateStr d
      .ok ([⟨.sender, "adminStats",
             some (.jobj (s.toObj ++
               [("connectedUsers", .jnum g.connectedUsers.length),
                ("adminCount", .jnum g.adminSockets.length)]))⟩], d)
  | .ping =>
      .ok ([⟨.sender, "pong", some (.jobj [("timestamp", .jstr env.iso)])⟩], d)

/-- One `addQuest` call's inputs: the clock reads, the random draw, and the
client payload. -/
structure AddCall where
  nowMs : Nat
  rand : Rat
  iso : String
  payload : Obj

/-- The id `Date.now() + Math.random()` assigns for a call. -/
def callId (c : AddCall) : Rat := (c.nowMs : Rat) + c.rand

/-- The quest object a call leaves in the store. -/
def storedQuest (c : AddCall) : Obj :=
  setField (setField c.payload "id" (.jnum (callId c))) "createdAt" (.jstr c.iso)

/-- Run a sequence of `addQuest` calls against a store. -/
def runAddQuests (calls : List AddCall) (d : StoreData) : StoreData :=
  calls.foldl (fun st c => (DataStore.addQuest c.nowMs c.rand c.iso c.payload st).2) d

/-- A category mutation. -/
inductive CatOp where
  | add (name : String)
  | del (name : String)

/-- Apply one category mutation to the store. -/
def applyCatOp (d : StoreData) : CatOp → StoreData
  | .add n => (DataStore.addCategory n d).2
  | .del n => (DataStore.deleteCategory n d).2

/-- Run a sequence of category mutations. -/
def runCatOps (ops : List CatOp) (d : StoreData) : StoreData :=
  ops.foldl applyCatOp d

/-- A concrete environment for witness instances (the abstracted renderers
return the empty string). -/
def envW : Env :=
  { nowMs := 5, rand := 0, iso := "2024-01-01T00:00:00.000Z",
    today := "Mon Jan 01 2024", dateStr := fun _ => "", display := fun _ => "" }

/-- A concrete registry for witness instances: two sockets, one admin. -/
def gW : Gateway := { connectedUsers := ["sockA", "sockB"], adminSockets := ["sockB"] }

/-- A concrete quest for witness instances. -/
def qW : Obj := [("id", .jnum 7), ("title", .jstr "Fix sign"), ("user", .jstr "alice"),
                 ("status", .jstr "open"), ("createdAt", .jstr "t0")]

/-- A concrete one-quest store for witness instances. -/
def dW : StoreData := { initData "t0" with quests := [qW] }

/-- A second concrete environment for witness instances. -/
def envT : Env :=
  { nowMs := 9, rand := 0, iso := "t1", today := "Mon Jan 01 2024",
    dateStr := fun _ => "", display := fun _ => "" }

/-- The three-quest store of the statistics example. -/
def exStatsStore : StoreData :=
  { initData "t0" with
      quests := [[("status", .jstr "open")], [("status", .jstr "open")],
                 [("status", .jstr "taken")]] }

theorem getField_setField_same (o : Obj) (k : String) (v : JVal) :
    getField (setField o k v) k = some v := by
  induction o with
  | nil => simp [setField, getField]
  | cons kv rest ih =>
      obtain ⟨a, b⟩ := kv
      by_cases h : a = k
      · simp [setField, h, getField]
      · simp [setField, h, getField, ih]

theorem getField_setField_ne (o : Obj) (k k' : String) (v : JVal) (h : k' ≠ k) :
    getField (setField o k v) k' = getField o k' := by
  induction o with
  | nil => simp [setField, getField, Ne.symm h]
  | cons kv rest ih =>
      obtain ⟨a, b⟩ := kv
      by_cases hak : a = k
      · subst hak
        simp [setField, getField, Ne.symm h]
      · simp [setField, hak, getField, ih]

theorem objAssign_single (q : Obj) (k : String) (v : JVal) :
    objAssign q [(k, v)] = setField q k v := rfl

theorem asObj_jobj_map (l : List Obj) : (l.map JVal.jobj).map asObj = l := by
  rw [List.map_map]
  exact List.map_id'' (fun _ => rfl) l

theorem asStr_jstr_map (l : List String) : (l.map JVal.jstr).map asStr = l := by
  rw [List.map_map]
  exact List.map_id'' (fun _ => rfl) l

theorem asObj_comp_jobj_map (l : List Obj) : l.map (asObj ∘ JVal.jobj) = l :=
  List.map_id'' (fun _ => rfl) l

theorem asStr_comp_jstr_map (l : List String) : l.map (asStr ∘ JVal.jstr) = l :=
  List.map_id'' (fun _ => rfl) l

theorem updateFirst_split (p : Obj → Bool) (f : Obj → Obj) (l1 l2 : List Obj) (q : Obj)
    (h1 : ∀ x ∈ l1, p x = false) (hq : p q = true) :
    DataStore.updateFirst p f (l1 ++ q :: l2) = (some (f q), l1 ++ f q :: l2) := by
  induction l1 with
  | nil => simp [DataStore.updateFirst, hq]
  | cons a rest ih =>
      have ha : p a = false := h1 a (by simp)
      have hrest : ∀ x ∈ rest, p x = false := fun x hx => h1 x (by simp [hx])
      simp [DataStore.updateFirst, ha, ih hrest]

theorem updateFirst_none (p : Obj → Bool) (f : Obj → Obj) (l : List Obj)
    (h : ∀ x ∈ l, p x = false) :
    DataStore.updateFirst p f l = (none, l) := by
  induction l with
  | nil => rfl
  | cons a rest ih =>
      have ha : p a = false := h a (by simp)
      have hrest : ∀ x ∈ rest, p x = false := fun x hx => h x (by simp [hx])
      simp [DataStore.updateFirst, ha, ih hrest]

theorem removeFirst_split (p : Obj → Bool) (l1 l2 : List Obj) (q : Obj)
    (h1 : ∀ x ∈ l1, p x = false) (hq : p q = true) :
    DataStore.removeFirst p (l1 ++ q :: l2) = (some q, l1 ++ l2) := by
  induction l1 with
  | nil => simp [DataStore.removeFirst, hq]
  | cons a rest ih =>
      have ha : p a = false := h1 a (by simp)
      have hrest : ∀ x ∈ rest, p x = false := fun x hx => h1 x (by simp [hx])
      simp [DataStore.removeFirst, ha, ih hrest]

theorem removeFirst_none (p : Obj → Bool) (l : List Obj)
    (h : ∀ x ∈ l, p x = false) :
    DataStore.removeFirst p l = (none, l) := by
  induction l with
  | nil => rfl
  | cons a rest ih =>
      have ha : p a = false := h a (by simp)
      have hrest : ∀ x ∈ rest, p x = false := fun x hx => h x (by simp [hx])
      simp [DataStore.removeFirst, ha, ih hrest]

theorem removeFirstStr_sublist (n : String) (l : List String) :
    (DataStore.removeFirstStr n l).2.Sublist l := by
  induction l with
  | nil => simp [DataStore.removeFirstStr]
  | cons s rest ih =>
      by_cases h : s = n
      · simp only [DataStore.removeFirstStr, if_pos h]
        exact List.Sublist.cons s (List.Sublist.refl rest)
      · simp only [DataStore.removeFirstStr, if_neg h]
        exact List.Sublist.cons₂ s ih

theorem runAddQuests_quests (calls : List AddCall) (d : StoreData) :
    (runAddQuests calls d).quests = (calls.map storedQuest).reverse ++ d.quests := by
  induction calls generalizing d with
  | nil => rfl
  | cons c cs ih =>
      have hstep : runAddQuests (c :: cs) d =
          runAddQuests cs { d with quests := storedQuest c :: d.quests } := rfl
      rw [hstep, ih]
      simp

theorem storedQuest_id (c : AddCall) :
    getField (storedQuest c) "id" = some (.jnum (callId c)) := by
  rw [storedQuest, getField_setField_ne _ _ _ _ (by decide), getField_setField_same]

theorem storedQuest_createdAt (c : AddCall) :
    getField (storedQuest c) "createdAt" = some (.jstr c.iso) := by
  rw [storedQuest, getField_setField_same]

theorem storedQuest_frame (c : AddCall) (k : String)
    (h1 : k ≠ "id") (h2 : k ≠ "createdAt") :
    getField (storedQuest c) k = getField c.payload k := by
  rw [storedQuest, getField_setField_ne _ _ _ _ h2, getField_setField_ne _ _ _ _ h1]

theorem jsEqU_iff (a b : Option JVal) (ha : primOptB a = true) :
    jsEqU a b = true ↔ a = b := by
  cases a with
  | none =>
      cases b with
      | none => simp [jsEqU]
      | some v => simp [jsEqU]
  | some va =>
      cases b with
      | none => simp [jsEqU]
      | some vb => cases va <;> cases vb <;> simp_all [jsEqU, jsEq, primOptB]

theorem statusIs_iff (s : String) (q : Obj) :
    statusIs s q = true ↔ getField q "status" = some (.jstr s) := by
  unfold statusIs
  cases h : getField q "status" with
  | none => simp [jsEqU]
  | some v => cases v <;> simp [jsEqU, jsEq]

theorem dedupBy_jsEqU_eq_dedup [DecidableEq (Option JVal)] (us : List (Option JVal))
    (h : ∀ v ∈ us, primOptB v = true) :
    dedupBy jsEqU us = us.dedup := by
  induction us with
  | nil => rfl
  | cons x xs ih =>
      have hx : primOptB x = true := h x (by simp)
      have hxs : ∀ v ∈ xs, primOptB v = true := fun v hv => h v (by simp [hv])
      simp only [dedupBy, ih hxs]
      by_cases hm : x ∈ xs
      · have hany : (xs.dedup).any (jsEqU x) = true := by
          rw [List.any_eq_true]
          exact ⟨x, List.mem_dedup.mpr hm, (jsEqU_iff x x hx).mpr rfl⟩
        rw [if_pos hany, List.dedup_cons_of_mem hm]
      · have hany : ¬ (xs.dedup).any (jsEqU x) = true := by
          rw [List.any_eq_true]
          rintro ⟨b, hb, heq⟩
          exact hm (((jsEqU_iff x b hx).mp heq) ▸ List.mem_dedup.mp hb)
        rw [if_neg hany, List.dedup_cons_of_not_mem hm]

theorem applyCatOp_nodup (d : StoreData) (h : d.customCategories.Nodup) (op : CatOp) :
    ((applyCatOp d op).customCategories).Nodup := by
  cases op with
  | add n =>
      by_cases hm : n ∈ d.customCategories
      · simpa [applyCatOp, DataStore.addCategory, hm] using h
      · have hdisj : d.customCategories.Disjoint [n] := by
          intro a ha hb
          rw [List.mem_singleton] at hb
          subst hb
          exact hm ha
        simp only [applyCatOp, DataStore.addCategory, if_neg hm]
        exact List.nodup_append.mpr ⟨h, List.nodup_singleton n, hdisj⟩
  | del n =>
      exact List.Nodup.sublist (removeFirstStr_sublist n d.customCategories) h

theorem runCatOps_nodup (ops : List CatOp) (d : StoreData)
    (h : d.customCategories.Nodup) :
    ((runCatOps ops d).customCategories).Nodup := by
  induction ops generalizing d with
  | nil => exact h
  | cons op ops ih => exact ih (applyCatOp d op) (applyCatOp_nodup d h op)

theorem updateQuest_eq (iso : String) (id : JVal) (upds : Obj) (d : StoreData) :
    DataStore.updateQuest iso id upds d =
      ((DataStore.updateFirst (DataStore.questIdMatches id)
          (fun q => setField (objAssign q upds) "updatedAt" (.jstr iso)) d.quests).1,
       { d with quests := (DataStore.updateFirst (DataStore.questIdMatches id)
          (fun q => setField (objAssign q upds) "updatedAt" (.jstr iso)) d.quests).2 }) := rfl

theorem deleteQuest_eq (id : JVal) (d : StoreData) :
    DataStore.deleteQuest id d =
      ((DataStore.removeFirst (DataStore.questIdMatches id) d.quests).1,
       { d with quests :=
          (DataStore.removeFirst (DataStore.questIdMatches id) d.quests).2 }) := rfl

/-- C2: serializing the store's state to the durability-file format
(`saveData`) and constructing a fresh store that loads that file yields a
store whose `getAllData()` snapshot — quests, markers, and customCategories
— is identical to the original store's `getAllData()` snapshot. -/
theorem save_load_roundtrip (d : StoreData) (isoSave isoInit : String) :
    DataStore.getAllData
        (DataStore.construct isoInit (.parsed (DataStore.saveData isoSave d).2)) =
      DataStore.getAllData d := by
  have hq : jsGet (DataStore.saveData isoSave d).2 "quests"
      = some (.jarr (d.quests.map .jobj)) := rfl
  have hm : jsGet (DataStore.saveData isoSave d).2 "markers"
      = some (.jarr (d.markers.map .jobj)) := rfl
  have hc : jsGet (DataStore.saveData isoSave d).2 "customCategories"
      = some (.jarr (d.customCategories.map .jstr)) := rfl
  simp [DataStore.construct, DataStore.loadData, DataStore.getAllData, hq, hm, hc,
    orDefault, truthy, asObjList, asStrList, asObj_jobj_map, asStr_jstr_map,
    asObj_comp_jobj_map, asStr_comp_jstr_map]

/-- C10: loading the durability file is tolerant: a malformed (or missing)
file leaves every default in place; any absent top-level key falls back to
the in-memory default for that key; and the loaded state depends only on
the four known top-level keys, so unknown keys are ignored. -/
theorem loadData_tolerant_spec (iso : String) (saved : JVal) :
    DataStore.loadData .malformed (initData iso) = initData iso ∧
    DataStore.loadData .missing (initData iso) = initData iso ∧
    (jsGet saved "quests" = none →
      (DataStore.loadData (.parsed saved) (initData iso)).quests
        = (initData iso).quests) ∧
    (jsGet saved "markers" = none →
      (DataStore.loadData (.parsed saved) (initData iso)).markers
        = (initData iso).markers) ∧
    (jsGet saved "customCategories" = none →
      (DataStore.loadData (.parsed saved) (initData iso)).customCategories
        = (initData iso).customCategories) ∧
    (jsGet saved "analytics" = none →
      (DataStore.loadData (.parsed saved) (initData iso)).analytics
        = (initData iso).analytics) ∧
    (∀ saved2 : JVal,
      jsGet saved "quests" = jsGet saved2 "quests" →
      jsGet saved "markers" = jsGet saved2 "markers" →
      jsGet saved "customCategories" = jsGet saved2 "customCategories" →
      jsGet saved "analytics" = jsGet saved2 "analytics" →
      DataStore.loadData (.parsed saved) (initData iso)
        = DataStore.loadData (.parsed saved2) (initData iso)) := by
  refine ⟨rfl, rfl, ?_, ?_, ?_, ?_, ?_⟩
  · intro h
    simp [DataStore.loadData, h, orDefault, initData]
  · intro h
    simp [DataStore.loadData, h, orDefault, initData]
  · intro h
    simp [DataStore.loadData, h, orDefault]
  · intro h
    simp [DataStore.loadData, h, orDefault]
  · intro saved2 h1 h2 h3 h4
    simp [DataStore.loadData, h1, h2, h3, h4]

/-- Witness for C10 at a concrete document holding only an unknown key. -/
theorem loadData_tolerant_spec_witness :
    jsGet (.jobj [("bogus", .jnum 1)]) "quests" = none ∧
    (DataStore.loadData (.parsed (.jobj [("bogus", .jnum 1)])) (initData "t0")).quests
      = (initData "t0").quests := by
  refine ⟨rfl, ?_⟩
  exact (loadData_tolerant_spec "t0" (.jobj [("bogus", .jnum 1)])).2.2.1 rfl

/-- C7: `addCategory` is a no-op returning the already-exists signal when
the name is present (case-sensitive exact match) and otherwise appends the
name; consequently, after any sequence of `addCategory` and
`deleteCategory` operations starting from the five seeded defaults, each
category name appears at most once. -/
theorem category_unique_spec :
    (∀ (d : StoreData) (name : String), name ∈ d.customCategories →
        DataStore.addCategory name d = (none, d)) ∧
    (∀ (d : StoreData) (name : String), name ∉ d.customCategories →
        DataStore.addCategory name d =
          (some name, { d with customCategories := d.customCategories ++ [name] })) ∧
    (∀ (ops : List CatOp) (iso : String),
        ((runCatOps ops (initData iso)).customCategories).Nodup) := by
  refine ⟨?_, ?_, ?_⟩
  · intro d name h
    simp [DataStore.addCategory, h]
  · intro d name h
    simp [DataStore.addCategory, h]
  · intro ops iso
    have hseed : (["design", "programming", "marketing", "writing", "other"] :
        List String).Nodup := by decide
    exact runCatOps_nodup ops (initData iso) hseed

/-- Witness for C7 at concrete inputs: a seeded duplicate is rejected, a
fresh name is appended, and a mutation sequence keeps the set duplicate
free. -/
theorem category_unique_spec_witness :
    ("design" ∈ (initData "t0").customCategories ∧
      DataStore.addCategory "design" (initData "t0") = (none, initData "t0")) ∧
    ("roleplay" ∉ (initData "t0").customCategories ∧
      DataStore.addCategory "roleplay" (initData "t0") =
        (some "roleplay", { initData "t0" with customCategories :=
          (initData "t0").customCategories ++ ["roleplay"] })) ∧
    ((runCatOps [.add "design", .del "writing", .add "roleplay"]
        (initData "t0")).customCategories).Nodup := by
  refine ⟨⟨by decide, ?_⟩, ⟨by decide, ?_⟩, ?_⟩
  · exact category_unique_spec.1 (initData "t0") "design" (by decide)
  · exact category_unique_spec.2.1 (initData "t0") "roleplay" (by decide)
  · exact category_unique_spec.2.2 [.add "design", .del "writing", .add "roleplay"] "t0"

/-- C1 counterexample: with `Date.now()` returning the same millisecond and
`Math.random()` drawing the same value at both calls (`id = 5 + 0` twice),
two `addQuest` calls from the empty store produce two stored quests with
equal ids, so the claimed unconditional id-distinctness fails. -/
theorem addQuest_id_collision :
    ¬ ((runAddQuests [⟨5, 0, "t1", []⟩, ⟨5, 0, "t2", []⟩]
        (initData "t0")).quests.Pairwise
          (fun a b => getField a "id" ≠ getField b "id")) := by
  intro h
  have hl : (runAddQuests [⟨5, 0, "t1", []⟩, ⟨5, 0, "t2", []⟩]
      (initData "t0")).quests
        = [storedQuest ⟨5, 0, "t2", []⟩, storedQuest ⟨5, 0, "t1", []⟩] := rfl
  rw [hl] at h
  have hne := (List.pairwise_cons.mp h).1 (storedQuest ⟨5, 0, "t1", []⟩) (by simp)
  apply hne
  rw [storedQuest_id, storedQuest_id]
  rfl

/-- C1 (amended): for every sequence of `addQuest` calls from an empty
store, the collection length equals the number of calls, the quests are the
created quests in reverse chronological order (most recent first), and each
stored quest carries the id drawn for its call — all unconditionally; and
provided the drawn `Date.now() + Math.random()` values are pairwise
distinct, the stored ids are pairwise distinct. -/
theorem addQuest_seq_spec (calls : List AddCall) (iso : String) :
    (runAddQuests calls (initData iso)).quests.length = calls.length ∧
    (runAddQuests calls (initData iso)).quests = (calls.map storedQuest).reverse ∧
    (∀ c ∈ calls, getField (storedQuest c) "id" = some (.jnum (callId c))) ∧
    ((calls.map callId).Nodup →
      (runAddQuests calls (initData iso)).quests.Pairwise
        (fun a b => getField a "id" ≠ getField b "id")) := by
  have hq : (runAddQuests calls (initData iso)).quests
      = (calls.map storedQuest).reverse := by
    rw [runAddQuests_quests]
    simp [initData]
  refine ⟨by rw [hq]; simp, hq, fun c _ => storedQuest_id c, ?_⟩
  intro h
  rw [hq, List.pairwise_reverse]
  have hp : calls.Pairwise fun a b => callId a ≠ callId b := List.pairwise_map.mp h
  rw [List.pairwise_map]
  refine hp.imp ?_
  intro a b hab
  rw [storedQuest_id, storedQuest_id]
  intro heq
  apply hab
  injection heq with h1
  injection h1 with h2
  exact h2.symm

/-- Witness for C1 at two concrete calls with distinct drawn ids. -/
theorem addQuest_seq_spec_witness :
    (([⟨5, 0, "a", []⟩, ⟨6, 1/2, "b", []⟩] : List AddCall).map callId).Nodup ∧
    ((runAddQuests [⟨5, 0, "a", []⟩, ⟨6, 1/2, "b", []⟩] (initData "t0")).quests.length
        = 2 ∧
      (runAddQuests [⟨5, 0, "a", []⟩, ⟨6, 1/2, "b", []⟩] (initData "t0")).quests
        = (([⟨5, 0, "a", []⟩, ⟨6, 1/2, "b", []⟩] : List AddCall).map storedQuest).reverse ∧
      (∀ c ∈ ([⟨5, 0, "a", []⟩, ⟨6, 1/2, "b", []⟩] : List AddCall),
        getField (storedQuest c) "id" = some (.jnum (callId c))) ∧
      (runAddQuests [⟨5, 0, "a", []⟩, ⟨6, 1/2, "b", []⟩] (initData "t0")).quests.Pairwise
        (fun a b => getField a "id" ≠ getField b "id")) := by
  have hnd : (([⟨5, 0, "a", []⟩, ⟨6, 1/2, "b", []⟩] : List AddCall).map callId).Nodup := by
    norm_num [callId, List.nodup_cons]
  have h := addQuest_seq_spec [⟨5, 0, "a", []⟩, ⟨6, 1/2, "b", []⟩] "t0"
  exact ⟨hnd, h.1, h.2.1, h.2.2.1, h.2.2.2 hnd⟩

/-- C6 counterexample: a caller-supplied `id` field is not copied through
verbatim — `addQuest` overwrites it with the store-assigned id, so the
stored quest disagrees with the payload on a field the caller supplied. -/
theorem addQuest_overwrites_supplied_id :
    getField (DataStore.addQuest 5 0 "t1" [("id", .jstr "mine")] (initData "t0")).1 "id"
      ≠ some (.jstr "mine") := by
  intro h
  have h' : some (JVal.jnum (((5 : Nat) : Rat) + 0)) = some (JVal.jstr "mine") := h
  injection h' with h1
  injection h1

/-- C6 (amended): `addQuest` copies every caller-supplied field other than
`id` and `createdAt` verbatim into the stored quest; the store-assigned
`id` and `createdAt` overwrite any caller-supplied values under those two
keys; and the stored quest is inserted at the head of the sequence. -/
theorem addQuest_fields_verbatim (nowMs : Nat) (rand : Rat) (iso : String)
    (payload : Obj) (d : StoreData) :
    (∀ k, k ≠ "id" → k ≠ "createdAt" →
      getField (DataStore.addQuest nowMs rand iso payload d).1 k = getField payload k) ∧
    getField (DataStore.addQuest nowMs rand iso payload d).1 "id"
      = some (.jnum ((nowMs : Rat) + rand)) ∧
    getField (DataStore.addQuest nowMs rand iso payload d).1 "createdAt"
      = some (.jstr iso) ∧
    (DataStore.addQuest nowMs rand iso payload d).2
      = { d with quests := (DataStore.addQuest nowMs rand iso payload d).1 :: d.quests } := by
  refine ⟨fun k h1 h2 => ?_, ?_, ?_, rfl⟩
  · exact storedQuest_frame ⟨nowMs, rand, iso, payload⟩ k h1 h2
  · exact storedQuest_id ⟨nowMs, rand, iso, payload⟩
  · exact storedQuest_createdAt ⟨nowMs, rand, iso, payload⟩

/-- Witness for C6 at a concrete payload and the field `title`. -/
theorem addQuest_fields_verbatim_witness :
    (("title" : String) ≠ "id" ∧ ("title" : String) ≠ "createdAt") ∧
    getField (DataStore.addQuest 5 0 "t1" [("title", .jstr "x")] (initData "t0")).1 "title"
      = getField [("title", .jstr "x")] "title" := by
  refine ⟨⟨by decide, by decide⟩, ?_⟩
  exact (addQuest_fields_verbatim 5 0 "t1" [("title", .jstr "x")] (initData "t0")).1
    "title" (by decide) (by decide)

/-- C3: on a store whose quests split as a non-matching prefix, a quest
matching `id`, and a suffix, `updateQuest(id, {status})` replaces exactly
that quest by its updated copy — whose `status` is the new value, whose
`updatedAt` is the current ISO time, and which agrees with the original on
every other key — leaving every other quest and every other collection
unchanged; on a store with no matching quest it returns the not-found
signal, changes nothing, and the gateway emits no event at all. -/
theorem updateQuest_spec (env : Env) (g : Gateway) (d : StoreData) (id status : JVal) :
    (∀ l1 q l2, d.quests = l1 ++ q :: l2 →
      (∀ p ∈ l1, DataStore.questIdMatches id p = false) →
      DataStore.questIdMatches id q = true →
      DataStore.updateQuest env.iso id [("status", status)] d =
        (some (setField (setField q "status" status) "updatedAt" (.jstr env.iso)),
         { d with quests :=
            l1 ++ setField (setField q "status" status) "updatedAt" (.jstr env.iso) :: l2 }) ∧
      getField (setField (setField q "status" status) "updatedAt" (.jstr env.iso)) "status"
        = some status ∧
      getField (setField (setField q "status" status) "updatedAt" (.jstr env.iso)) "updatedAt"
        = some (.jstr env.iso) ∧
      (∀ k, k ≠ "status" → k ≠ "updatedAt" →
        getField (setField (setField q "status" status) "updatedAt" (.jstr env.iso)) k
          = getField q k)) ∧
    ((∀ p ∈ d.quests, DataStore.questIdMatches id p = false) →
      DataStore.updateQuest env.iso id [("status", status)] d = (none, d) ∧
      handleMsg env g d (.updateQuest (some (id, status))) = .ok ([], d)) := by
  constructor
  · intro l1 q l2 hd h1 hq
    have hr := updateFirst_split (DataStore.questIdMatches id)
      (fun q => setField (objAssign q [("status", status)]) "updatedAt" (.jstr env.iso))
      l1 l2 q h1 hq
    refine ⟨?_, ?_, ?_, ?_⟩
    · rw [updateQuest_eq, hd, hr]
      rfl
    · rw [getField_setField_ne _ _ _ _ (by decide), getField_setField_same]
    · rw [getField_setField_same]
    · intro k hk1 hk2
      rw [getField_setField_ne _ _ _ _ hk2, getField_setField_ne _ _ _ _ hk1]
  · intro hall
    have hr := updateFirst_none (DataStore.questIdMatches id)
      (fun q => setField (objAssign q [("status", status)]) "updatedAt" (.jstr env.iso))
      d.quests hall
    have hupd : DataStore.updateQuest env.iso id [("status", status)] d = (none, d) := by
      rw [updateQuest_eq, hr]
    refine ⟨hupd, ?_⟩
    simp [handleMsg, hupd]

/-- Witness for C3 at a concrete one-quest store and a matching id. -/
theorem updateQuest_spec_witness :
    (dW.quests = [] ++ qW :: [] ∧ DataStore.questIdMatches (.jnum 7) qW = true) ∧
    DataStore.updateQuest "t1" (.jnum 7) [("status", .jstr "taken")] dW =
      (some (setField (setField qW "status" (.jstr "taken")) "updatedAt" (.jstr "t1")),
       { dW with quests :=
          [] ++ setField (setField qW "status" (.jstr "taken")) "updatedAt" (.jstr "t1") :: [] }) := by
  refine ⟨⟨rfl, rfl⟩, ?_⟩
  exact ((updateQuest_spec envT gW dW (.jnum 7) (.jstr "taken")).1
    [] qW [] rfl (by simp) rfl).1

/-- C8: on a store whose quests hold exactly one entry matching `id` (the
store invariant: at most one quest per id), `deleteQuest(id)` removes
exactly that entry, returns it, and leaves the relative order of the
remaining quests (and every other collection) unchanged; a second
`deleteQuest` with the same id is a no-op returning the not-found signal,
so the deletion is idempotent in effect. -/
theorem deleteQuest_spec (id : JVal) (d : StoreData) (l1 l2 : List Obj) (q : Obj)
    (hd : d.quests = l1 ++ q :: l2)
    (h1 : ∀ p ∈ l1, DataStore.questIdMatches id p = false)
    (hq : DataStore.questIdMatches id q = true)
    (h2 : ∀ p ∈ l2, DataStore.questIdMatches id p = false) :
    DataStore.deleteQuest id d = (some q, { d with quests := l1 ++ l2 }) ∧
    DataStore.deleteQuest id { d with quests := l1 ++ l2 } =
      (none, { d with quests := l1 ++ l2 }) := by
  constructor
  · have hr := removeFirst_split (DataStore.questIdMatches id) l1 l2 q h1 hq
    rw [deleteQuest_eq, hd, hr]
  · have hall : ∀ p ∈ l1 ++ l2, DataStore.questIdMatches id p = false := by
      intro p hp
      rcases List.mem_append.mp hp with h | h
      · exact h1 p h
      · exact h2 p h
    have hr := removeFirst_none (DataStore.questIdMatches id) (l1 ++ l2) hall
    rw [deleteQuest_eq]
    show ((DataStore.removeFirst (DataStore.questIdMatches id) (l1 ++ l2)).1, _) = _
    rw [hr]

/-- Witness for C8 at a concrete one-quest store. -/
theorem deleteQuest_spec_witness :
    (dW.quests = [] ++ qW :: [] ∧ DataStore.questIdMatches (.jnum 7) qW = true) ∧
    DataStore.deleteQuest (.jnum 7) dW = (some qW, { dW with quests := [] ++ [] }) ∧
    DataStore.deleteQuest (.jnum 7) { dW with quests := [] ++ [] } =
      (none, { dW with quests := [] ++ [] }) := by
  refine ⟨⟨rfl, rfl⟩, ?_⟩
  exact deleteQuest_spec (.jnum 7) dW [] [] qW rfl (by simp) rfl (by simp)

open Classical in
/-- C9: `getStats()` reports `totalQuests` as the number of stored quests,
`questsOpen`/`questsTaken` as the number of quests whose `status` is
exactly the string `open`/`taken`, and — whenever the `user` values are
primitives, where the JS Set's SameValueZero test coincides with structural
equality — `activeUsers` as the number of distinct `user` values; in
particular, for quests `[{status:"open"}, {status:"open"},
{status:"taken"}]` it reports `questsOpen = 2`, `questsTaken = 1`,
`totalQuests = 3`. -/
theorem getStats_spec :
    (∀ (today : String) (dateStr : Option JVal → String) (d : StoreData),
      (DataStore.getStats today dateStr d).totalQuests = d.quests.length ∧
      (DataStore.getStats today dateStr d).questsOpen =
        d.quests.countP (fun q => decide (getField q "status" = some (.jstr "open"))) ∧
      (DataStore.getStats today dateStr d).questsTaken =
        d.quests.countP (fun q => decide (getField q "status" = some (.jstr "taken"))) ∧
      ((∀ q ∈ d.quests, primOptB (getField q "user") = true) →
        (DataStore.getStats today dateStr d).activeUsers =
          ((d.quests.map (fun q => getField q "user")).dedup).length)) ∧
    ((DataStore.getStats "d" (fun _ => "") exStatsStore).questsOpen = 2 ∧
     (DataStore.getStats "d" (fun _ => "") exStatsStore).questsTaken = 1 ∧
     (DataStore.getStats "d" (fun _ => "") exStatsStore).totalQuests = 3) := by
  constructor
  · intro today dateStr d
    refine ⟨rfl, ?_, ?_, ?_⟩
    · show (d.quests.filter (statusIs "open")).length = _
      rw [← List.countP_eq_length_filter]
      exact List.countP_congr fun x _ =>
        (statusIs_iff "open" x).trans decide_eq_true_iff.symm
    · show (d.quests.filter (statusIs "taken")).length = _
      rw [← List.countP_eq_length_filter]
      exact List.countP_congr fun x _ =>
        (statusIs_iff "taken" x).trans decide_eq_true_iff.symm
    · intro hprim
      show (dedupBy jsEqU (d.quests.map fun q => getField q "user")).length = _
      rw [dedupBy_jsEqU_eq_dedup]
      intro v hv
      rcases List.mem_map.mp hv with ⟨q, hq, rfl⟩
      exact hprim q hq
  · exact ⟨rfl, rfl, rfl⟩

open Classical in
/-- Witness for C9 at the concrete three-quest store (all `user` values are
absent there, hence primitive). -/
theorem getStats_spec_witness :
    (∀ q ∈ exStatsStore.quests, primOptB (getField q "user") = true) ∧
    (DataStore.getStats "d" (fun _ => "") exStatsStore).activeUsers =
      ((exStatsStore.quests.map (fun q => getField q "user")).dedup).length := by
  refine ⟨by decide, ?_⟩
  exact (getStats_spec.1 "d" (fun _ => "") exStatsStore).2.2.2 (by decide)

/-- C4: when a client sends `addQuest` with an object payload, processing
succeeds and: the stored quest carries the assigned `id` and `createdAt`;
every connected client — the sender and non-admins included — receives a
`questAdded` broadcast carrying that quest; a client receives some
`adminNotification` exactly when it is in the admin set (assuming the
registry invariant that admin sockets are connected); and every
`adminNotification` goes to a single admin socket with payload type
`quest_added`.  Admin-set membership itself is decided at connect time by
`checkAdmin` on the referrer. -/
theorem addQuest_broadcast_spec (env : Env) (g : Gateway) (d : StoreData)
    (payload : Obj) (sender : String)
    (hadm : ∀ a ∈ g.adminSockets, a ∈ g.connectedUsers) :
    ∃ ems d',
      handleMsg env g d (.addQuest (some payload)) = .ok (ems, d') ∧
      getField (DataStore.addQuest env.nowMs env.rand env.iso payload d).1 "id"
        = some (.jnum ((env.nowMs : Rat) + env.rand)) ∧
      getField (DataStore.addQuest env.nowMs env.rand env.iso payload d).1 "createdAt"
        = some (.jstr env.iso) ∧
      (∀ sid ∈ g.connectedUsers, ∃ e ∈ ems,
        receives g sender sid e = true ∧ e.event = "questAdded" ∧
        e.payload = some (.jobj (DataStore.addQuest env.nowMs env.rand env.iso payload d).1)) ∧
      (∀ sid, (∃ e ∈ ems, receives g sender sid e = true ∧ e.event = "adminNotification")
        ↔ sid ∈ g.adminSockets) ∧
      (∀ e ∈ ems, e.event = "adminNotification" →
        ∃ a ∈ g.adminSockets, e.target = .toSession a ∧
          ∃ pl, e.payload = some pl ∧ jsGet pl "type" = some (.jstr "quest_added")) ∧
      (∀ (sid sid' : String) (referer : Option String) (d0 : StoreData),
        (sid' ∈ (connect sid referer g d0).1.adminSockets ↔
          sid' ∈ g.adminSockets ∨ (sid' = sid ∧ checkAdmin referer = true))) := by
  refine ⟨_, _, rfl, storedQuest_id ⟨env.nowMs, env.rand, env.iso, payload⟩,
    storedQuest_createdAt ⟨env.nowMs, env.rand, env.iso, payload⟩, ?_, ?_, ?_, ?_⟩
  · intro sid hsid
    refine ⟨⟨.all, "questAdded",
      some (.jobj (DataStore.addQuest env.nowMs env.rand env.iso payload d).1)⟩,
      by simp, ?_, rfl, rfl⟩
    simp [receives, hsid]
  · intro sid
    constructor
    · rintro ⟨e, he, hrec, hev⟩
      rcases List.mem_cons.mp he with rfl | hmem
      · have hbad : ("questAdded" : String) = "adminNotification" := hev
        exact absurd hbad (by decide)
      · rcases List.mem_map.mp hmem with ⟨a, ha, rfl⟩
        simp only [receives, Bool.and_eq_true, decide_eq_true_eq] at hrec
        exact hrec.1 ▸ ha
    · intro hsid
      refine ⟨⟨.toSession sid, "adminNotification",
        some (adminNotifyPayload env "quest_added" "Quest"
          (DataStore.addQuest env.nowMs env.rand env.iso payload d).1)⟩,
        ?_, ?_, rfl⟩
      · exact List.mem_cons_of_mem _ (List.mem_map.mpr ⟨sid, hsid, rfl⟩)
      · simp [receives, hadm sid hsid]
  · intro e he hev
    rcases List.mem_cons.mp he with rfl | hmem
    · have hbad : ("questAdded" : String) = "adminNotification" := hev
      exact absurd hbad (by decide)
    · rcases List.mem_map.mp hmem with ⟨a, ha, rfl⟩
      exact ⟨a, ha, rfl, adminNotifyPayload env "quest_added" "Quest"
        (DataStore.addQuest env.nowMs env.rand env.iso payload d).1, rfl, rfl⟩
  · intro sid sid' referer d0
    by_cases hchk : checkAdmin referer = true <;> simp [connect, hchk]

/-- Witness for C4 at a concrete registry with two connected sockets, one of
them admin. -/
theorem addQuest_broadcast_spec_witness :
    (∀ a ∈ gW.adminSockets, a ∈ gW.connectedUsers) ∧
    ∃ ems d',
      handleMsg envW gW (initData "t0") (.addQuest (some [("title", .jstr "Fix sign")]))
        = .ok (ems, d') ∧
      (∀ sid, (∃ e ∈ ems, receives gW "sockA" sid e = true ∧ e.event = "adminNotification")
        ↔ sid ∈ gW.adminSockets) := by
  have hadm : ∀ a ∈ gW.adminSockets, a ∈ gW.connectedUsers := by decide
  obtain ⟨ems, d', h1, _, _, _, h5, _⟩ :=
    addQuest_broadcast_spec envW gW (initData "t0") [("title", .jstr "Fix sign")]
      "sockA" hadm
  exact ⟨hadm, ems, d', h1, h5⟩

/-- C5 counterexample: a `null` payload on `updateQuest` is destructured by
the handler's parameter `({ id, status })` before its `try` begins, so the
resulting `TypeError` escapes the handler uncaught — contradicting the
claim that every exception raised while processing an inbound message is
caught within that message's handler. -/
theorem updateQuest_null_uncaught :
    handleMsg envW gW (initData "t0") (.updateQuest none) = .error () := rfl

/-- C5 (amended): for every inbound message other than a `null`-payload
`updateQuest` — whose parameter destructuring runs before the `try`/`catch`
and throws an uncaught `TypeError` — processing completes without an
uncaught exception, and among all emissions an `error` event to the sender
can arise only from an `addQuest` message. -/
theorem handler_exception_spec (env : Env) (g : Gateway) (d : StoreData) (msg : Msg)
    (h : msg ≠ .updateQuest none) :
    ∃ ems d', handleMsg env g d msg = .ok (ems, d') ∧
      ∀ e ∈ ems, e.event = "error" → ∃ p, msg = .addQuest p := by
  have hne : ∀ (a : String) (pl : Option JVal),
      a ≠ "error" → ∀ e ∈ ([⟨.all, a, pl⟩] : List Emission), e.event = "error" →
        ∃ p, msg = .addQuest p := by
    intro a pl ha e he hev
    rw [List.mem_singleton] at he
    subst he
    exact absurd hev ha
  cases msg with
  | addQuest payload =>
      cases payload with
      | none => exact ⟨_, _, rfl, fun e he hev => ⟨none, rfl⟩⟩
      | some p =>
          refine ⟨_, _, rfl, ?_⟩
          intro e he hev
          exfalso
          rcases List.mem_cons.mp he with rfl | hmem
          · have hbad : ("questAdded" : String) = "error" := hev
            exact absurd hbad (by decide)
          · rcases List.mem_map.mp hmem with ⟨a, _, rfl⟩
            have hbad : ("adminNotification" : String) = "error" := hev
            exact absurd hbad (by decide)
  | updateQuest payload =>
      cases payload with
      | none => exact absurd rfl h
      | some pr =>
          obtain ⟨id, status⟩ := pr
          cases hres : (DataStore.updateQuest env.iso id [("status", status)] d).1 with
          | some q =>
              refine ⟨[⟨.all, "questUpdated", some (.jobj q)⟩],
                (DataStore.updateQuest env.iso id [("status", status)] d).2, ?_, ?_⟩
              · simp [handleMsg, hres]
              · exact hne "questUpdated" _ (by decide)
          | none =>
              refine ⟨[], (DataStore.updateQuest env.iso id [("status", status)] d).2,
                ?_, by simp⟩
              simp [handleMsg, hres]
  | deleteQuest id =>
      cases hres : (DataStore.deleteQuest id d).1 with
      | some q =>
          refine ⟨[⟨.all, "questDeleted", some id⟩], (DataStore.deleteQuest id d).2, ?_, ?_⟩
          · simp [handleMsg, hres]
          · exact hne "questDeleted" _ (by decide)
      | none =>
          refine ⟨[], (DataStore.deleteQuest id d).2, ?_, by simp⟩
          simp [handleMsg, hres]
  | addMarker payload =>
      cases payload with
      | none => exact ⟨_, _, rfl, by simp⟩
      | some p =>
          refine ⟨_, _, rfl, ?_⟩
          intro e he hev
          exfalso
          rcases List.mem_cons.mp he with rfl | hmem
          · have hbad : ("markerAdded" : String) = "error" := hev
            exact absurd hbad (by decide)
          · rcases List.mem_map.mp hmem with ⟨a, _, rfl⟩
            have hbad : ("adminNotification" : String) = "error" := hev
            exact absurd hbad (by decide)
  | deleteMarker id =>
      cases hres : (DataStore.deleteMarker id d).1 with
      | some q =>
          refine ⟨[⟨.all, "markerDeleted", some id⟩], (DataStore.deleteMarker id d).2, ?_, ?_⟩
          · simp [handleMsg, hres]
          · exact hne "markerDeleted" _ (by decide)
      | none =>
          refine ⟨[], (DataStore.deleteMarker id d).2, ?_, by simp⟩
          simp [handleMsg, hres]
  | clearAllQuests =>
      exact ⟨_, _, rfl, hne "allQuestsCleared" _ (by decide)⟩
  | clearAllMarkers =>
      exact ⟨_, _, rfl, hne "allMarkersCleared" _ (by decide)⟩
  | addCategory name =>
      cases hres : (DataStore.addCategory name d).1 with
      | some q =>
          by_cases ht : truthy (.jstr q) = true
          · refine ⟨[⟨.all, "categoryAdded", some (.jstr name)⟩],
              (DataStore.addCategory name d).2, ?_, ?_⟩
            · simp [handleMsg, hres, ht]
            · exact hne "categoryAdded" _ (by decide)
          · refine ⟨[], (DataStore.addCategory name d).2, ?_, by simp⟩
            simp [handleMsg, hres, ht]
      | none =>
          refine ⟨[], (DataStore.addCategory name d).2, ?_, by simp⟩
          simp [handleMsg, hres]
  | deleteCategory name =>
      cases hres : (DataStore.deleteCategory name d).1 with
      | some q =>
          by_cases ht : truthy (.jstr q) = true
          · refine ⟨[⟨.all, "categoryDeleted", some (.jstr name)⟩],
              (DataStore.deleteCategory name d).2, ?_, ?_⟩
            · simp [handleMsg, hres, ht]
            · exact hne "categoryDeleted" _ (by decide)
          · refine ⟨[], (DataStore.deleteCategory name d).2, ?_, by simp⟩
            simp [handleMsg, hres, ht]
      | none =>
          refine ⟨[], (DataStore.deleteCategory name d).2, ?_, by simp⟩
          simp [handleMsg, hres]
  | getAdminStats =>
      refine ⟨_, _, rfl, ?_⟩
      intro e he hev
      rw [List.mem_singleton] at he
      subst he
      have hbad : ("adminStats" : String) = "error" := hev
      exact absurd hbad (by decide)
  | ping =>
      refine ⟨_, _, rfl, ?_⟩
      intro e he hev
      rw [List.mem_singleton] at he
      subst he
      have hbad : ("pong" : String) = "error" := hev
      exact absurd hbad (by decide)

/-- Witness for C5 at the `ping` message. -/
theorem handler_exception_spec_witness :
    (Msg.ping ≠ .updateQuest none) ∧
    ∃ ems d', handleMsg envW gW (initData "t0") .ping = .ok (ems, d') ∧
      ∀ e ∈ ems, e.event = "error" → ∃ p, Msg.ping = .addQuest p := by
  have h : Msg.ping ≠ .updateQuest none := fun hc => Msg.noConfusion hc
  exact ⟨h, handler_exception_spec envW gW (initData "t0") .ping h⟩
